import Mathlib

/-!
Verification of the wp-vite-scripts sync tool (src/bin/sync.js) against its
natural-language specification.  The definitions below are a shallow
embedding of the relevant functions of sync.js: pure string manipulation is
translated directly, and the side-effecting orchestration code is modelled
as functions producing the ordered list of external effects (prompts,
subprocess spawns, dry-run log lines) the JavaScript would perform.
-/

namespace WpSync

/-- Character-level model of the JavaScript `String.prototype.trim`
restricted to the whitespace characters both runtimes agree on:
whitespace is removed from both ends of the string. -/
def jsTrim (s : String) : String :=
  ⟨((s.data.dropWhile Char.isWhitespace).reverse.dropWhile Char.isWhitespace).reverse⟩

/-- Character-level model of the JavaScript `String.prototype.toLowerCase`
restricted to the ASCII fragment exercised by sync.js. -/
def jsToLower (s : String) : String := ⟨s.data.map Char.toLower⟩

/-- Models `ans.trim().toLowerCase()` as performed by `ask` in sync.js. -/
def askNormalize (s : String) : String := jsToLower (jsTrim s)

/-- Models `confirm` in sync.js: the answer returned by `ask` (already
trimmed and lowercased) is compared with `expected.toLowerCase()`. -/
def confirmAccepts (expected answer : String) : Bool :=
  askNormalize answer == jsToLower expected

/-- Whether the character list starts with the pattern list. -/
def listStartsWith : List Char → List Char → Bool
  | [], _ => true
  | _ :: _, [] => false
  | p :: ps, c :: cs => p == c && listStartsWith ps cs

/-- Character-level model of the JavaScript `String.prototype.startsWith`. -/
def jsStartsWith (pat s : String) : Bool := listStartsWith pat.data s.data

/-- Helper of `jsSplitSpace`: split a character list at a separator. -/
def splitOnCharGo (sep : Char) (cur : List Char) : List Char → List (List Char)
  | [] => [cur.reverse]
  | c :: rest =>
    if c == sep then cur.reverse :: splitOnCharGo sep [] rest
    else splitOnCharGo sep (c :: cur) rest

/-- Character-level model of the JavaScript `split(" ")` on a string:
split at every single space, keeping empty fields. -/
def jsSplitSpace (s : String) : List String :=
  (splitOnCharGo ' ' [] s.data).map (fun l => ⟨l⟩)

/-- The y/n gate guarding a push of the database (syncDatabase, push branch):
message and expected token passed to `confirm`. -/
def pushDbGate : String × String := ("⚠️ Overwrite REMOTE DB? (y/n) ", "y")

/-- The y/n gate guarding a pull of the database (syncDatabase, pull branch). -/
def pullDbGate : String × String := ("⚠️ Overwrite LOCAL DB? (y/n) ", "y")

/-- The stronger gate in `main` guarding a push to the environment named
production; the prompt asks for the exact uppercase literal while the
expected token handed to `confirm` is lowercase. -/
def productionPushGate : String × String :=
  ("Type exactly 'I WANT TO PUSH' to continue: ", "i want to push")

/-- The single-quote character, written by code point to keep the source
free of quote-escape sequences. -/
def quoteChar : Char := Char.ofNat 39

/-- The backslash character, written by code point. -/
def backslashChar : Char := Char.ofNat 92

/-- Models `shellEscape` of sync.js: the argument is wrapped in single
quotes and every embedded single quote is replaced by the four-character
sequence quote-backslash-quote-quote. -/
def shellEscape (s : String) : String :=
  ⟨quoteChar ::
    ((s.data.map (fun c =>
      if c == quoteChar then [quoteChar, backslashChar, quoteChar, quoteChar]
      else [c])).flatten ++ [quoteChar])⟩

/-- A character that may occur in a URL scheme after its first letter
(WHATWG URL Standard: ASCII alphanumeric, plus, minus, or dot). -/
def isSchemeChar (c : Char) : Bool :=
  c.isAlpha || c.isDigit || c == '+' || c == '-' || c == '.'

/-- Helper of `schemeSplit`: consume scheme characters until a colon. -/
def schemeSplitGo (acc : List Char) : List Char → Option (List Char × List Char)
  | [] => none
  | c :: rest =>
    if c == ':' then some (acc, rest)
    else if isSchemeChar c then schemeSplitGo (acc ++ [c]) rest
    else none

/-- Splits a candidate URL into scheme and remainder, exactly when it
begins with a valid scheme followed by a colon (WHATWG URL Standard);
otherwise the input has no scheme and absolute-URL parsing fails. -/
def schemeSplit : List Char → Option (List Char × List Char)
  | [] => none
  | c :: rest => if c.isAlpha then schemeSplitGo [c] rest else none

/-- Characters that terminate the authority component of a special URL. -/
def isAuthEnd (c : Char) : Bool :=
  c == '/' || c == '?' || c == '#' || c == backslashChar

/-- Drops `suf` from the end of `l` when `l` ends with it. -/
def dropSuffix (suf l : List Char) : List Char :=
  if suf.isSuffixOf l then l.take (l.length - suf.length) else l

/-- Modelled from the platform: `new URL(s).host` of the WHATWG URL
Standard (an external API of the Node runtime, not repository code), for
the grammar fragment sync.js exercises: `none` when the string has no
scheme (parse failure of an absolute URL); the empty host for a
non-special scheme (the remainder is an opaque path, so `host` is empty —
this is what makes `host:port` strings parse as scheme plus path); and for
the special schemes http/https the lowercased authority up to the first
delimiter, with the scheme default port removed, an empty authority being
a parse failure. -/
def urlHostChars (l : List Char) : Option (List Char) :=
  match schemeSplit l with
  | none => none
  | some (scheme0, rest) =>
    let scheme := scheme0.map Char.toLower
    if scheme == "http".data || scheme == "https".data then
      let rest1 := rest.dropWhile (fun c => c == '/' || c == backslashChar)
      let auth := rest1.takeWhile (fun c => !isAuthEnd c)
      if auth.isEmpty then none
      else
        let hostPort := auth.map Char.toLower
        let dflt := if scheme == "http".data then ":80".data else ":443".data
        some (dropSuffix dflt hostPort)
    else some []

/-- The fallback branch of `normalizeDomain`: the sync.js regex
`^https?://` (text form) removing one leading scheme marker. -/
def stripSchemeFallback (l : List Char) : List Char :=
  if l.take 7 == "http://".data then l.drop 7
  else if l.take 8 == "https://".data then l.drop 8
  else l

/-- The fallback branch of `normalizeDomain`: the sync.js regex removing
one trailing slash. -/
def stripTrailingSlash (l : List Char) : List Char :=
  if l.getLast? == some '/' then l.dropLast else l

/-- Models `normalizeDomain` of sync.js on character lists: try strict URL
parsing and take the host; on parse failure fall back to stripping a
leading `http://` or `https://` and a trailing slash. -/
def normalizeDomainChars (l : List Char) : List Char :=
  match urlHostChars l with
  | some h => h
  | none => stripTrailingSlash (stripSchemeFallback l)

/-- Models `normalizeDomain` of sync.js. -/
def normalizeDomain (s : String) : String := ⟨normalizeDomainChars s.data⟩

/-- One environment entry of sync.config.json as sync.js reads it. -/
structure EnvConfig where
  sshAlias : String := ""
  wpRoot : String := ""
  domain : String := ""
  wpBin : Option String := none
  exclude : List String := []
deriving DecidableEq, Repr

/-- The loaded sync.config.json: the ordered environment map (JavaScript
objects preserve insertion order, which `Object.keys` exposes), the
multisite flag, and the optional top-level wpBin default. -/
structure SyncConfig where
  environments : List (String × EnvConfig)
  multisite : Bool := false
  wpBin : Option String := none
deriving DecidableEq, Repr

/-- `Object.keys(config.environments)` in declaration order. -/
def envNames (cfg : SyncConfig) : List String := cfg.environments.map Prod.fst

/-- Association lookup in the environments object. -/
def envLookup (cfg : SyncConfig) (name : String) : Option EnvConfig :=
  (cfg.environments.find? (fun p => p.fst == name)).map Prod.snd

/-- Comma-space join used by the fatal messages of sync.js. -/
def joinComma : List String → String
  | [] => ""
  | [x] => x
  | x :: rest => x ++ ", " ++ joinComma rest

/-- Space join, as `Array.prototype.join(" ")`. -/
def joinSpace : List String → String
  | [] => ""
  | [x] => x
  | x :: rest => x ++ " " ++ joinSpace rest

/-- Models `resolveEnvironment` of sync.js.  `fatal` (console.error plus
process.exit(1)) is modelled as `Except.error` carrying the message. -/
def resolveEnvironment (cliEnv : Option String) (cfg : SyncConfig)
    (requireExplicit : Bool) : Except String String :=
  let allEnvs := envNames cfg
  let envs := allEnvs.filter (fun e => e ≠ "local")
  match cliEnv with
  | some e =>
    if allEnvs.contains e then Except.ok e
    else Except.error ("❌ Unknown environment \"" ++ e ++ "\". Available: " ++ joinComma allEnvs)
  | none =>
    if requireExplicit then
      Except.error ("❌ -e <env> is required for this command. Available: " ++ joinComma envs)
    else if envs.length = 1 then Except.ok (envs.headD "")
    else if envs.length = 0 then
      Except.error "❌ No remote environments defined (only \"local\" found). Please add staging/production/etc."
    else Except.error ("❌ -e <env> is required. Available: " ++ joinComma envs)

/-- A parsed option value of node:util parseArgs. -/
inductive OptVal where
  | str (s : String)
  | flag (b : Bool)
deriving DecidableEq, Repr

/-- The result of parseArgs as main uses it: the `values` object (an
association list keyed by option name) and the positionals. -/
structure ParsedArgs where
  values : List (String × OptVal)
  positionals : List String
deriving DecidableEq, Repr

/-- `values.x` for a string-typed option: `some` only when the key is
present and holds a string. -/
def valuesStr (p : ParsedArgs) (key : String) : Option String :=
  match (p.values.find? (fun q => q.fst == key)).map Prod.snd with
  | some (OptVal.str s) => some s
  | _ => none

/-- The option table declared in `main`: for each accepted flag, its key
in `values`, whether it takes a string value, and its short alias.  Keys
are the property names of the options object, which is what parseArgs
uses to key `values` — notably the `-e`/`--env` value is stored under the
key `env`. -/
def optionTable : List (String × Bool × Char) :=
  [("dryRun", false, 'n'), ("all", false, 'a'), ("help", false, 'h'),
   ("env", true, 'e'),
   ("t", false, 't'), ("p", false, 'p'), ("m", false, 'm'),
   ("l", false, 'l'), ("u", false, 'u'), ("d", false, 'd'),
   ("replace", true, 'R')]

/-- Looks up a long option name in the table: `some isString` if known. -/
def longOpt (name : String) : Option Bool :=
  (optionTable.find? (fun t => t.fst == name)).map (fun t => t.snd.fst)

/-- Looks up a short alias in the table, giving its key and type. -/
def shortOpt (c : Char) : Option (String × Bool) :=
  (optionTable.find? (fun t => t.snd.snd == c)).map (fun t => (t.fst, t.snd.fst))

/-- Splits a character list at its first equals sign, when present. -/
def breakAtEq : List Char → Option (List Char × List Char)
  | [] => none
  | c :: rest =>
    if c == '=' then some ([], rest)
    else
      match breakAtEq rest with
      | none => none
      | some (a, b) => some (c :: a, b)

/-- Splits a `--name=value` token at its first equals sign. -/
def splitEq (s : String) : String × Option String :=
  match breakAtEq s.data with
  | none => (s, none)
  | some (n, v) => (⟨n⟩, some ⟨v⟩)

/-- Modelled from the platform: node:util `parseArgs` (an external API of
the Node runtime) under the exact configuration main passes it —
`strict: false`, `allowPositionals: true`, and the option table above —
restricted to the token shapes the claims exercise: long options with or
without an inline `=value`, a lone short alias (consuming the next token
when string-typed), and plain positionals.  Values are keyed by the
option property name, short aliases included. -/
def parseArgsModel : List String → ParsedArgs
  | [] => { values := [], positionals := [] }
  | a :: rest =>
    if jsStartsWith "--" a then
      let body : String := ⟨a.data.drop 2⟩
      let (name, inl) := splitEq body
      match inl with
      | some v =>
        let p := parseArgsModel rest
        { p with values := (name, OptVal.str v) :: p.values }
      | none =>
        match longOpt name with
        | some true =>
          match rest with
          | v :: rest2 =>
            let p := parseArgsModel rest2
            { p with values := (name, OptVal.str v) :: p.values }
          | [] =>
            let p := parseArgsModel []
            { p with values := (name, OptVal.flag true) :: p.values }
        | _ =>
          let p := parseArgsModel rest
          { p with values := (name, OptVal.flag true) :: p.values }
    else
      match a.data with
      | ['-', c] =>
        match shortOpt c with
        | some (key, true) =>
          match rest with
          | v :: rest2 =>
            let p := parseArgsModel rest2
            { p with values := (key, OptVal.str v) :: p.values }
          | [] =>
            let p := parseArgsModel []
            { p with values := (key, OptVal.flag true) :: p.values }
        | some (key, false) =>
          let p := parseArgsModel rest
          { p with values := (key, OptVal.flag true) :: p.values }
        | none =>
          let p := parseArgsModel rest
          p
      | _ =>
        let p := parseArgsModel rest
        { p with positionals := a :: p.positionals }

/-- Models the environment-name resolution of `main` for the push/pull
commands (the lines from `let envName = values.e` to the `Unknown
environment` fatal): the code reads `values.e` — a key that parseArgs
never populates, since the option is declared under the name `env` — then
tries the first positional target as an environment name, and finally
looks the name up in the config, `fatal`ing on failure.  A JavaScript
`undefined` name is interpolated into the message as the text
`undefined`.  Returns the resolved name and the remaining positional
targets. -/
def mainResolvePushPullEnv (p : ParsedArgs) (cfg : SyncConfig) :
    Except String (String × List String) :=
  let envName0 := valuesStr p "e"
  let targets0 := p.positionals.drop 1
  match envName0 with
  | some e =>
    match envLookup cfg e with
    | some _ => Except.ok (e, targets0)
    | none => Except.error ("❌ Unknown environment: " ++ e)
  | none =>
    match targets0 with
    | [] => Except.error "❌ Unknown environment: undefined"
    | t0 :: restTargets =>
      match resolveEnvironment (some t0) cfg false with
      | Except.error msg => Except.error msg
      | Except.ok e =>
        match envLookup cfg e with
        | some _ => Except.ok (e, restTargets)
        | none => Except.error ("❌ Unknown environment: " ++ e)

/-- Models `resolveBackupDir` of sync.js, relative to the project root:
the export-replace variant goes to the shared `sql/exports` directory,
everything else to the per-environment `sql/<envName>` directory. -/
def resolveBackupDir (envName : String) (isExportReplace : Bool) : String :=
  if isExportReplace then "sql/exports" else "sql/" ++ envName

/-- The one file a db:export run writes, together with the remote command
that produces its contents. -/
structure ExportPlan where
  dir : String
  filename : String
  replacePair : Option (String × String)
deriving DecidableEq, Repr

/-- Models the domain-substitution pair handed to the remote
search-replace by `exportRemoteDB` when a replace domain is given: the
source side is `normalizeDomain(env.domain)`, the target side is the
`replaceDomain` argument exactly as received. -/
def exportReplacePair (env : EnvConfig) (replaceDomain : String) : String × String :=
  (normalizeDomain env.domain, replaceDomain)

/-- Models the remote command string `exportRemoteDB` builds and runs
over ssh (`cd <wpRoot> && <wpCmd>`). -/
def exportRemoteWpCmd (env : EnvConfig) (replaceDomain : Option String) : String :=
  match replaceDomain with
  | some rd =>
    (env.wpBin.getD "wp") ++ " search-replace " ++
      shellEscape (normalizeDomain env.domain) ++ " " ++ shellEscape rd ++
      " --all-tables --export=-"
  | none => (env.wpBin.getD "wp") ++ " db export - --single-transaction --quick"

/-- Models the db:export branch of `main` after argument parsing, given
the environment name the code actually obtained (`values.e`) and the
`--replace` value: checks, destination directory, filename, and the
substitution pair of the remote export command. -/
def dbExportMain (envName0 : Option String) (replace0 : Option String)
    (cfg : SyncConfig) (ts : String) : Except String ExportPlan :=
  match envName0 with
  | none => Except.error "❌ Error: Please specify environment with -e"
  | some envName =>
    match envLookup cfg envName with
    | none => Except.error ("❌ Error: Unknown environment '" ++ envName ++ "'")
    | some env =>
      match replace0 with
      | some replaceEnv =>
        match envLookup cfg replaceEnv with
        | none =>
          Except.error ("❌ Error: Unknown environment '" ++ replaceEnv ++
            "'. Available: " ++ joinComma (envNames cfg))
        | some targetEnv =>
          Except.ok
            { dir := resolveBackupDir envName true
              filename := envName ++ "-to-" ++ replaceEnv ++ "-" ++ ts ++ ".sql"
              replacePair := some (exportReplacePair env targetEnv.domain) }
      | none =>
        Except.ok
          { dir := resolveBackupDir envName false
            filename := envName ++ "-" ++ ts ++ ".sql"
            replacePair := none }

/-- The db:export command end to end: parseArgs, then the branch of
`main`, reading the environment from `values.e` as the source does. -/
def dbExportCli (args : List String) (cfg : SyncConfig) (ts : String) :
    Except String ExportPlan :=
  let p := parseArgsModel args
  dbExportMain (valuesStr p "e") (valuesStr p "replace") cfg ts

/-- The two transfer directions of sync.js (the `cmd` strings push/pull). -/
inductive Direction where
  | push
  | pull
deriving DecidableEq, Repr

/-- One observable external effect of the orchestration code, in program
order: an interactive prompt, a subprocess spawn (the constructors whose
name begins with `spawn`), a dry-run console line announcing the intended
invocation without executing it (the `note` constructors), or an
operation-log line. -/
inductive DbEvent where
  | prompt (message : String)
  | spawnLocalExport (wpBin dumpPath : String)
  | noteLocalExport (dumpPath : String)
  | spawnRemoteExport (sshAlias remoteCmd dumpPath : String)
  | noteRemoteExport (dumpPath : String)
  | spawnPipe (srcCmd : String) (srcArgs : List String) (snkCmd : String) (snkArgs : List String)
  | notePipe (srcCmd : String) (srcArgs : List String) (snkCmd : String) (snkArgs : List String)
  | spawnRun (cmd : String) (args : List String)
  | noteRun (cmd : String) (args : List String)
  | noteSearchReplace (target fromDomain toDomain : String)
  | noteLog (message : String)
deriving DecidableEq, Repr

/-- Whether an event launches an external subprocess. -/
def isSpawn : DbEvent → Bool
  | DbEvent.spawnLocalExport _ _ => true
  | DbEvent.spawnRemoteExport _ _ _ => true
  | DbEvent.spawnPipe _ _ _ _ => true
  | DbEvent.spawnRun _ _ => true
  | _ => false

/-- Whether an event is a destructive write: the piped export-to-import
pair overwrites a database, and the `runAsync` spawns issued by
syncDatabase run the mutating search-replace.  Prompts, the backup
exports (reads that write only local backup files), dry-run notes and log
lines are not destructive. -/
def isDestructive : DbEvent → Bool
  | DbEvent.spawnPipe _ _ _ _ => true
  | DbEvent.spawnRun _ _ => true
  | _ => false

/-- Whether an event launches or announces the piped export-to-import
subprocess pair. -/
def mentionsPipe : DbEvent → Bool
  | DbEvent.spawnPipe _ _ _ _ => true
  | DbEvent.notePipe _ _ _ _ => true
  | _ => false

/-- Whether an event launches or announces a search-replace. -/
def mentionsSearchReplace : DbEvent → Bool
  | DbEvent.spawnRun _ _ => true
  | DbEvent.noteRun _ _ => true
  | DbEvent.noteSearchReplace _ _ _ => true
  | _ => false

/-- Models `runAsync` of sync.js as events: in dry-run mode it logs the
would-be invocation and resolves without spawning. -/
def runAsyncEvents (cmd : String) (args : List String) (dryRun : Bool) : List DbEvent :=
  if dryRun then [DbEvent.noteRun cmd args] else [DbEvent.spawnRun cmd args]

/-- Models `exportLocalDB` of sync.js as events: a dry-run logs the
intention; a live run spawns the local wp client and streams its dump
into `dumpPath`. -/
def exportLocalDBEvents (wpBin dumpPath : String) (dryRun : Bool) : List DbEvent :=
  if dryRun then [DbEvent.noteLocalExport dumpPath]
  else [DbEvent.spawnLocalExport wpBin dumpPath]

/-- Models `exportRemoteDB` of sync.js as events, carrying the remote
command string it assembles. -/
def exportRemoteDBEvents (env : EnvConfig) (dumpPath : String) (dryRun : Bool)
    (replaceDomain : Option String) : List DbEvent :=
  if dryRun then [DbEvent.noteRemoteExport dumpPath]
  else [DbEvent.spawnRemoteExport env.sshAlias
    ("cd " ++ env.wpRoot ++ " && " ++ exportRemoteWpCmd env replaceDomain) dumpPath]

/-- Models `runSearchReplace` of sync.js as events.  The local branch
splits the wp binary string on spaces and appends a `--path` argument
when the binary starts with `wp `; the remote branch assembles one shell
command string executed over ssh, with both domains shell-escaped and
the option list joined by spaces. -/
def runSearchReplaceEvents (target fromDomain toDomain wpBin wpRoot : String)
    (wpOptions : List String) (dryRun : Bool) : List DbEvent :=
  if dryRun then [DbEvent.noteSearchReplace target fromDomain toDomain]
  else if target == "local" then
    let parts := jsSplitSpace wpBin
    let bin := parts.headD ""
    let binArgs := parts.tailD []
    let pathArgs := if jsStartsWith "wp " (jsTrim wpBin) && wpRoot ≠ "" then ["--path=" ++ wpRoot] else []
    runAsyncEvents bin (binArgs ++ pathArgs ++ ["search-replace", fromDomain, toDomain] ++ wpOptions) false
  else
    runAsyncEvents "ssh"
      [target, "cd " ++ wpRoot ++ " && " ++ wpBin ++ " search-replace " ++
        shellEscape fromDomain ++ " " ++ shellEscape toDomain ++ " " ++ joinSpace wpOptions] false

/-- The wp-cli option list syncDatabase builds for search-replace. -/
def wpOptionsOf (dryRun multisite : Bool) : List String :=
  ["--precise", "--recurse-objects", "--skip-columns=guid",
    "--report-changed-only", "--skip-plugins", "--skip-themes",
    "--all-tables", "--allow-root"]
  ++ (if dryRun then ["--dry-run"] else [])
  ++ (if multisite then ["--network"] else [])

/-- The local wp binary: `config.environments.local?.wpBin || config.wpBin
|| "wp"`. -/
def wpBinLocalOf (cfg : SyncConfig) : String :=
  (((envLookup cfg "local").bind EnvConfig.wpBin).orElse (fun _ => cfg.wpBin)).getD "wp"

/-- The outcome of one syncDatabase call: its events in program order and
`some 0` when the call ended the process via `process.exit(0)` (the
declined confirmation), `none` when it ran to the end of its branch. -/
structure DbSyncRun where
  events : List DbEvent
  exit : Option Nat
deriving DecidableEq, Repr

/-- Models `syncDatabase` of sync.js as its ordered external effects.
`answer` is the operator input read by the confirmation prompt; `ts` the
timestamp string computed at entry.  Every subprocess step of the source
is awaited, so program order is completion order: a later event is
attempted only after the earlier ones completed. -/
def syncDatabase (direction : Direction) (envName : String) (env : EnvConfig)
    (localDomain remoteDomain : String) (dryRun : Bool) (cfg : SyncConfig)
    (ts : String) (answer : String) : DbSyncRun :=
  let localBackupDir := resolveBackupDir "local" false
  let remoteBackupDir := resolveBackupDir envName false
  let wpBinLocal := wpBinLocalOf cfg
  let wpOptions := wpOptionsOf dryRun cfg.multisite
  let envWpBin := env.wpBin.getD "wp"
  match direction with
  | Direction.push =>
    if confirmAccepts pushDbGate.2 answer = false then
      { events := [DbEvent.prompt pushDbGate.1], exit := some 0 }
    else
      let localDumpPath := localBackupDir ++ "/local-backup-" ++ ts ++ ".sql"
      let pre := DbEvent.prompt pushDbGate.1 :: exportLocalDBEvents wpBinLocal localDumpPath dryRun
      if dryRun then { events := pre, exit := none }
      else
        let srcParts := jsSplitSpace wpBinLocal
        { events := pre ++
            [DbEvent.spawnPipe (srcParts.headD "")
              (srcParts.tailD [] ++ ["db", "export", "-", "--allow-root", "--single-transaction", "--quick"])
              "ssh"
              [env.sshAlias, "cd " ++ env.wpRoot ++ " && " ++ envWpBin ++ " db import -"]] ++
            runSearchReplaceEvents env.sshAlias localDomain remoteDomain envWpBin env.wpRoot wpOptions dryRun ++
            [DbEvent.noteLog "✅ Remote DB sync (push) complete."]
          exit := none }
  | Direction.pull =>
    if confirmAccepts pullDbGate.2 answer = false then
      { events := [DbEvent.prompt pullDbGate.1], exit := some 0 }
    else
      let beforePullPath := localBackupDir ++ "/local-backup-before-pull-" ++ ts ++ ".sql"
      let remoteBackupPath := remoteBackupDir ++ "/remote-backup-" ++ ts ++ ".sql"
      let pre := DbEvent.prompt pullDbGate.1 ::
        (exportLocalDBEvents wpBinLocal beforePullPath dryRun ++
          exportRemoteDBEvents env remoteBackupPath dryRun none)
      if dryRun then { events := pre, exit := none }
      else
        let snkParts := jsSplitSpace wpBinLocal
        { events := pre ++
            [DbEvent.spawnPipe "ssh"
              [env.sshAlias, "cd " ++ env.wpRoot ++ " && " ++ envWpBin ++ " db export - --single-transaction --quick"]
              (snkParts.headD "")
              (snkParts.tailD [] ++ ["db", "import", "-", "--allow-root"])] ++
            runSearchReplaceEvents "local" remoteDomain localDomain wpBinLocal env.wpRoot wpOptions dryRun ++
            [DbEvent.noteLog ("✅ Local DB sync (pull) complete. Backups retained: remote-backup-" ++ ts ++ ".sql")]
          exit := none }

/-- The rsync argument list `syncFiles` builds before the source and
destination paths: fixed flags, one `--exclude=` argument per pattern of
the environment-level and call-level exclude union, `--dry-run` in
dry-run mode, and `--delete-before` exactly when deletion mode is on. -/
def rsyncArgsOf (env : EnvConfig) (exclude : List String)
    (dryRun deleteMode : Bool) : List String :=
  ["-avz", "--no-perms", "--chmod=F644,D755", "--progress"]
  ++ (env.exclude ++ exclude).map (fun p => "--exclude=" ++ p)
  ++ (if dryRun then ["--dry-run"] else [])
  ++ (if deleteMode then ["--delete-before"] else [])

/-- Models `syncFiles` of sync.js as events, with the resolved local
source path and the `alias:dir` remote path supplied by the caller
(path.resolve and the filesystem checks live outside this model; the
push-direction missing-local-path fatal is modelled by `localExists`). -/
def syncFilesEvents (direction : Direction) (env : EnvConfig)
    (localSource remoteSource : String) (exclude : List String)
    (deleteMode dryRun localExists : Bool) : Except String (List DbEvent) :=
  let args := rsyncArgsOf env exclude dryRun deleteMode
  match direction with
  | Direction.push =>
    if localExists then
      Except.ok (runAsyncEvents "rsync" (args ++ [localSource, remoteSource]) dryRun)
    else Except.error ("❌ Local path not found: " ++ localSource)
  | Direction.pull =>
    Except.ok (runAsyncEvents "rsync" (args ++ [remoteSource, localSource]) dryRun)

/-- One file target of the dispatch map in `main`: its name, local
directory, remote directory pattern under the environment root, and the
deletion mode passed to `syncFiles`. -/
structure FileTarget where
  name : String
  localDir : String
  remoteSub : String
  deleteMode : Bool
deriving DecidableEq, Repr

/-- The file entries of the target map in `main`, in declaration order,
with the deleteMode argument each `syncFiles` call receives. -/
def fileTargets : List FileTarget :=
  [⟨"themes", "wp-content/themes", "wp-content/themes/", false⟩,
   ⟨"plugins", "wp-content/plugins", "wp-content/plugins/", false⟩,
   ⟨"muplugins", "wp-content/mu-plugins", "wp-content/mu-plugins/", true⟩,
   ⟨"languages", "wp-content/languages", "wp-content/languages/", false⟩,
   ⟨"uploads", "wp-content/uploads", "wp-content/uploads/", false⟩]

/-- The deleteMode of a named file target of the map in `main`. -/
def targetDeleteMode (name : String) : Option Bool :=
  (fileTargets.find? (fun t => t.name == name)).map FileTarget.deleteMode

/-- One event observed by the promise of `pipeProcesses`: a close of the
source or sink subprocess carrying its exit code, or a spawn-level error
of either side. -/
inductive PipeEv where
  | srcClose (code : Int)
  | snkClose (code : Int)
  | srcErr
  | snkErr
deriving DecidableEq, Repr

/-- How the composite pipe operation settled. -/
inductive PipeOutcome where
  | ok
  | srcFailed (code : Int)
  | snkFailed (code : Int)
  | spawnErr
deriving DecidableEq, Repr

/-- The mutable state of the `pipeProcesses` promise executor: the two
exit flags, the errorOccurred flag, and — once resolve or reject has
fired — the settlement, recording at which event index it happened (a
settled JavaScript promise ignores later resolve and reject calls). -/
structure PipeState where
  srcExited : Bool := false
  snkExited : Bool := false
  errorOccurred : Bool := false
  settled : Option (Nat × PipeOutcome) := none
deriving DecidableEq, Repr

/-- Settle the promise unless it already settled. -/
def pipeSettle (st : PipeState) (i : Nat) (o : PipeOutcome) : PipeState :=
  match st.settled with
  | some _ => st
  | none => { st with settled := some (i, o) }

/-- `checkExit` of pipeProcesses: resolve once both processes exited and
no error occurred. -/
def pipeCheckExit (st : PipeState) (i : Nat) : PipeState :=
  if st.srcExited && st.snkExited && !st.errorOccurred then pipeSettle st i PipeOutcome.ok
  else st

/-- One event handler dispatch of `pipeProcesses`, a direct transcription
of its four listeners. -/
def pipeStep (i : Nat) (st : PipeState) : PipeEv → PipeState
  | PipeEv.srcClose code =>
    let st := { st with srcExited := true }
    if code ≠ 0 && !st.errorOccurred then
      pipeSettle { st with errorOccurred := true } i (PipeOutcome.srcFailed code)
    else pipeCheckExit st i
  | PipeEv.snkClose code =>
    let st := { st with snkExited := true }
    if code ≠ 0 && !st.errorOccurred then
      pipeSettle { st with errorOccurred := true } i (PipeOutcome.snkFailed code)
    else pipeCheckExit st i
  | PipeEv.srcErr =>
    if !st.errorOccurred then
      pipeSettle { st with errorOccurred := true } i PipeOutcome.spawnErr
    else st
  | PipeEv.snkErr =>
    if !st.errorOccurred then
      pipeSettle { st with errorOccurred := true } i PipeOutcome.spawnErr
    else st

/-- Helper of `pipeRun`, threading the event index. -/
def pipeRunFrom (i : Nat) (st : PipeState) : List PipeEv → PipeState
  | [] => st
  | e :: rest => pipeRunFrom (i + 1) (pipeStep i st e) rest

/-- Runs the `pipeProcesses` promise executor over an observed event
interleaving and reports how (and at which event) it settled. -/
def pipeRun (events : List PipeEv) : Option (Nat × PipeOutcome) :=
  (pipeRunFrom 0 {} events).settled

/-- Sequential execution of an awaited event list under a success oracle
`ok`: the events that are attempted.  Every event of syncDatabase is
awaited before the next is reached and a failure aborts the pipeline
(reject or `fatal`), so execution attempts events in order and stops
with the first failing one. -/
def attemptedSteps (ok : DbEvent → Bool) : List DbEvent → List DbEvent
  | [] => []
  | e :: rest => if ok e then e :: attemptedSteps ok rest else [e]

/-- The events that ran to successful completion under the oracle: the
longest all-successful initial segment. -/
def completedSteps (ok : DbEvent → Bool) (l : List DbEvent) : List DbEvent :=
  l.takeWhile ok

/-- Test fixture: the local environment entry of a two-environment
configuration. -/
def localEnvC : EnvConfig := { domain := "http://dev.local" }

/-- Test fixture: a staging environment entry. -/
def stagingEnvC : EnvConfig :=
  { sshAlias := "stg", wpRoot := "/var/www/html", domain := "https://staging.example.com" }

/-- Test fixture: a production environment entry whose configured domain
is a full URL. -/
def productionEnvC : EnvConfig :=
  { sshAlias := "prod", wpRoot := "/var/www/prod", domain := "https://production.example.com" }

/-- Test fixture: a registry with exactly one non-local environment. -/
def cfgTwoC : SyncConfig :=
  { environments := [("local", localEnvC), ("staging", stagingEnvC)] }

/-- Test fixture: a registry with two non-local environments. -/
def cfgThreeC : SyncConfig :=
  { environments := [("local", localEnvC), ("staging", stagingEnvC), ("production", productionEnvC)] }

/-- Test fixture timestamp, in the to-the-minute shape sync.js produces. -/
def tsC : String := "20260101120000"

/-- Sliding-window subsequence test: whether `pat` occurs contiguously in
the list. -/
def hasSeq (pat : List Char) : List Char → Bool
  | [] => listStartsWith pat []
  | l@(_ :: rest) => listStartsWith pat l || hasSeq pat rest

theorem hasSeq_append_right (pat : List Char) (a : List Char) {b : List Char}
    (h : hasSeq pat b = true) : hasSeq pat (a ++ b) = true := by
  induction a with
  | nil => simpa using h
  | cons c a ih =>
    cases hb : a ++ b with
    | nil =>
      rw [List.cons_append, hb]
      rw [hb] at ih
      have hpat : pat = [] := by
        cases pat with
        | nil => rfl
        | cons p ps => simp [hasSeq, listStartsWith] at ih
      subst hpat
      simp [hasSeq, listStartsWith]
    | cons d l =>
      rw [List.cons_append, hb]
      rw [hb] at ih
      simp [hasSeq]
      right
      simpa [hasSeq] using ih

theorem schemeSplitGo_eq_none {l : List Char} (h : ':' ∉ l) :
    ∀ acc, schemeSplitGo acc l = none := by
  induction l with
  | nil => intro acc; rfl
  | cons c rest ih =>
    intro acc
    have h1 : c ≠ ':' := fun hc => h (hc ▸ List.mem_cons_self c rest)
    have h2 : ':' ∉ rest := fun hr => h (List.mem_cons_of_mem c hr)
    have hb : (c == ':') = false := beq_eq_false_iff_ne.mpr h1
    by_cases hs : isSchemeChar c = true
    · simp [schemeSplitGo, hb, hs, ih h2]
    · simp [schemeSplitGo, hb, hs]

theorem schemeSplit_eq_none {l : List Char} (h : ':' ∉ l) :
    schemeSplit l = none := by
  cases l with
  | nil => rfl
  | cons c rest =>
    have h2 : ':' ∉ rest := fun hr => h (List.mem_cons_of_mem c hr)
    by_cases hc : c.isAlpha = true
    · simp [schemeSplit, hc, schemeSplitGo_eq_none h2]
    · simp [schemeSplit, hc]

theorem stripSchemeFallback_eq_self {l : List Char} (h : ':' ∉ l) :
    stripSchemeFallback l = l := by
  have h7 : (l.take 7 == "http://".data) = false := by
    apply beq_eq_false_iff_ne.mpr
    intro he
    exact h (List.take_subset 7 l (he ▸ (by decide : ':' ∈ "http://".data)))
  have h8 : (l.take 8 == "https://".data) = false := by
    apply beq_eq_false_iff_ne.mpr
    intro he
    exact h (List.take_subset 8 l (he ▸ (by decide : ':' ∈ "https://".data)))
  simp [stripSchemeFallback, h7, h8]

theorem stripTrailingSlash_eq_self {l : List Char} (h : l.getLast? ≠ some '/') :
    stripTrailingSlash l = l := by
  have hb : (l.getLast? == some '/') = false := beq_eq_false_iff_ne.mpr h
  simp [stripTrailingSlash, hb]

theorem normalizeDomainChars_eq_self {l : List Char} (hc : ':' ∉ l)
    (hs : l.getLast? ≠ some '/') : normalizeDomainChars l = l := by
  unfold normalizeDomainChars
  rw [show urlHostChars l = none by unfold urlHostChars; rw [schemeSplit_eq_none hc]]
  rw [stripSchemeFallback_eq_self hc, stripTrailingSlash_eq_self hs]

/-- C6 counterexample: `normalizeDomain` is not idempotent and does not
leave every bare host unchanged.  A bare host carrying an explicit port,
`localhost:8080`, is parsed by the URL constructor as scheme `localhost`
with opaque path `8080`, so its host — the normalization result — is the
empty string, not the input; and a full URL with an explicit non-default
port normalizes to `x.com:8080`, which a second normalization collapses
to the empty string. -/
theorem normalizeDomain_not_idempotent :
    normalizeDomain "localhost:8080" = "" ∧
    normalizeDomain "localhost:8080" ≠ "localhost:8080" ∧
    normalizeDomain "http://x.com:8080/" = "x.com:8080" ∧
    normalizeDomain (normalizeDomain "http://x.com:8080/") ≠
      normalizeDomain "http://x.com:8080/" :=
  ⟨by decide, by decide, by decide, by decide⟩

/-- C6 (amended): domain normalization is idempotent on every input whose
normalized form is colon-free and does not end in a slash — in
particular a colon-free, slash-free bare host is returned unchanged —
but not on inputs whose normalized form retains a port or a trailing
slash. -/
theorem normalizeDomain_idempotent_on_clean :
    (∀ x : String, ':' ∉ (normalizeDomain x).data →
      (normalizeDomain x).data.getLast? ≠ some '/' →
      normalizeDomain (normalizeDomain x) = normalizeDomain x) ∧
    (∀ h : String, ':' ∉ h.data → h.data.getLast? ≠ some '/' →
      normalizeDomain h = h) := by
  constructor
  · intro x hc hs
    show (⟨normalizeDomainChars (normalizeDomain x).data⟩ : String) = normalizeDomain x
    rw [normalizeDomainChars_eq_self hc hs]
  · intro h hc hs
    show (⟨normalizeDomainChars h.data⟩ : String) = h
    rw [normalizeDomainChars_eq_self hc hs]

/-- Witness for the amended C6 theorem at concrete inputs. -/
theorem normalizeDomain_idempotent_on_clean_witness :
    normalizeDomain (normalizeDomain "https://staging.example.com/") =
      normalizeDomain "https://staging.example.com/" ∧
    normalizeDomain "staging.example.com" = "staging.example.com" :=
  ⟨normalizeDomain_idempotent_on_clean.1 "https://staging.example.com/"
      (by decide) (by decide),
    normalizeDomain_idempotent_on_clean.2 "staging.example.com"
      (by decide) (by decide)⟩

/-- C10: every confirmation gate compares the trimmed, lowercased
operator input against the lowercased expected token: the push and pull
y/n gates accept `Y`, ` y ` and `y`, and the production-push gate accepts
any letter-casing of the phrase `I WANT TO PUSH`, surrounding whitespace
included, although its prompt asks for the exact uppercase literal. -/
theorem confirm_gates_trim_and_lowercase :
    (∀ s, confirmAccepts pushDbGate.2 s = (askNormalize s == "y")) ∧
    (∀ s, confirmAccepts pullDbGate.2 s = (askNormalize s == "y")) ∧
    (∀ s, confirmAccepts productionPushGate.2 s = (askNormalize s == "i want to push")) ∧
    confirmAccepts pushDbGate.2 "Y" = true ∧
    confirmAccepts pushDbGate.2 " y " = true ∧
    confirmAccepts pushDbGate.2 "y" = true ∧
    confirmAccepts pullDbGate.2 " Y " = true ∧
    confirmAccepts productionPushGate.2 "  i WaNt To PuSh  " = true ∧
    confirmAccepts productionPushGate.2 "I WANT TO PUSH" = true ∧
    productionPushGate.1 = "Type exactly 'I WANT TO PUSH' to continue: " := by
  refine ⟨?_, ?_, ?_, by decide, by decide, by decide, by decide, by decide, by decide, rfl⟩
  · intro s
    show (askNormalize s == jsToLower "y") = (askNormalize s == "y")
    rw [show jsToLower "y" = "y" from by decide]
  · intro s
    show (askNormalize s == jsToLower "y") = (askNormalize s == "y")
    rw [show jsToLower "y" = "y" from by decide]
  · intro s
    show (askNormalize s == jsToLower "i want to push") = (askNormalize s == "i want to push")
    rw [show jsToLower "i want to push" = "i want to push" from by decide]

/-- C2 counterexample: when the source exits non-zero as the first
observed event (the sink still running), the promise of `pipeProcesses`
settles at event index 0 — rejecting with the source failure — instead
of waiting for the sink close at index 1, so a failing run does not wait
for both processes to terminate before returning. -/
theorem pipeProcesses_rejects_before_sink_exit :
    pipeRun [PipeEv.srcClose 1, PipeEv.snkClose 0] =
      some (0, PipeOutcome.srcFailed 1) := by decide

/-- C2 (amended): the pipe composition resolves exactly when both
processes exit zero (and only once both have closed); the first non-zero
exit from either side is recorded as the failure cause; but a failing run
settles immediately at that first non-zero exit, without waiting for the
other process to terminate. -/
theorem pipeProcesses_completion_contract (a b : Int) :
    (pipeRun [PipeEv.srcClose a, PipeEv.snkClose b] = some (1, PipeOutcome.ok) ↔
      a = 0 ∧ b = 0) ∧
    (pipeRun [PipeEv.snkClose b, PipeEv.srcClose a] = some (1, PipeOutcome.ok) ↔
      a = 0 ∧ b = 0) ∧
    (a ≠ 0 → pipeRun [PipeEv.srcClose a, PipeEv.snkClose b] =
      some (0, PipeOutcome.srcFailed a)) ∧
    (b ≠ 0 → pipeRun [PipeEv.snkClose b, PipeEv.srcClose a] =
      some (0, PipeOutcome.snkFailed b)) ∧
    (a = 0 → b ≠ 0 → pipeRun [PipeEv.srcClose a, PipeEv.snkClose b] =
      some (1, PipeOutcome.snkFailed b)) ∧
    (b = 0 → a ≠ 0 → pipeRun [PipeEv.snkClose b, PipeEv.srcClose a] =
      some (1, PipeOutcome.srcFailed a)) := by
  by_cases ha : a = 0 <;> by_cases hb : b = 0 <;>
    simp [pipeRun, pipeRunFrom, pipeStep, pipeSettle, pipeCheckExit, ha, hb]

/-- Witness for the amended C2 theorem at concrete exit codes. -/
theorem pipeProcesses_completion_contract_witness :
    pipeRun [PipeEv.srcClose 0, PipeEv.snkClose 0] = some (1, PipeOutcome.ok) ∧
    pipeRun [PipeEv.snkClose 2, PipeEv.srcClose 0] = some (0, PipeOutcome.snkFailed 2) :=
  ⟨(pipeProcesses_completion_contract 0 0).1.mpr ⟨rfl, rfl⟩,
    (pipeProcesses_completion_contract 0 2).2.2.2.1 (by decide)⟩

/-- C5: `resolveEnvironment` itself implements the claimed resolution
contract — with one non-local environment it resolves implicitly, with
several it demands `-e`, with none it fails — but the push/pull path of
`main` never reaches that implicit branch: it reads the parsed values
under the key `e` while parseArgs stores the `-e`/`--env` value under the
key `env`, so with `-e` omitted (`push --all`, or `push database` where
the first positional is tried as an environment name) the run dies with
an unknown-environment fatal instead of resolving to the single remote
environment, and even `push -e staging database` dies the same way. -/
theorem push_pull_implicit_resolution_broken :
    resolveEnvironment none cfgTwoC false = Except.ok "staging" ∧
    resolveEnvironment none cfgThreeC false =
      Except.error "❌ -e <env> is required. Available: staging, production" ∧
    resolveEnvironment none { environments := [("local", localEnvC)] } false =
      Except.error
        "❌ No remote environments defined (only \"local\" found). Please add staging/production/etc." ∧
    valuesStr (parseArgsModel ["push", "-e", "staging", "database"]) "e" = none ∧
    valuesStr (parseArgsModel ["push", "-e", "staging", "database"]) "env" = some "staging" ∧
    mainResolvePushPullEnv (parseArgsModel ["push", "--all"]) cfgTwoC =
      Except.error "❌ Unknown environment: undefined" ∧
    mainResolvePushPullEnv (parseArgsModel ["push", "database"]) cfgTwoC =
      Except.error "❌ Unknown environment \"database\". Available: local, staging" ∧
    mainResolvePushPullEnv (parseArgsModel ["push", "-e", "staging", "database"]) cfgTwoC =
      Except.error "❌ Unknown environment \"database\". Available: local, staging" ∧
    dbExportMain (valuesStr (parseArgsModel ["db:export"]) "e") none cfgTwoC tsC =
      Except.error "❌ Error: Please specify environment with -e" :=
  ⟨rfl, rfl, rfl, rfl, rfl, rfl, rfl, rfl, rfl⟩

/-- C4: the documented invocation `db:export -e staging
--replace=production` dies at the missing-environment fatal, because the
db:export branch of `main` also reads `values.e`, which parseArgs never
populates (the value sits under `values.env`); no export file is
produced.  Moreover, even along the intended path (the same branch given
the environment name it meant to read), the substitution pair the remote
export receives canonicalizes only the source side: the target side is
the configured domain of the replace environment verbatim — here the
full URL — not a bare host. -/
theorem db_export_replace_dies_at_parse :
    dbExportCli ["db:export", "-e", "staging", "--replace=production"] cfgThreeC tsC =
      Except.error "❌ Error: Please specify environment with -e" ∧
    valuesStr (parseArgsModel ["db:export", "-e", "staging", "--replace=production"]) "env" =
      some "staging" ∧
    dbExportMain (some "staging") (some "production") cfgThreeC tsC =
      Except.ok
        { dir := "sql/exports"
          filename := "staging-to-production-20260101120000.sql"
          replacePair := some ("staging.example.com", "https://production.example.com") } ∧
    normalizeDomain "https://production.example.com" = "production.example.com" :=
  ⟨rfl, rfl, rfl, by decide⟩

theorem excludeArg_ne_deleteFlag (p : String) : ("--exclude=" ++ p) ≠ "--delete-before" := by
  intro hp
  have hd : ("--exclude=".data ++ p.data)[2]? = "--delete-before".data[2]? := by
    rw [show "--exclude=".data ++ p.data = "--delete-before".data from congrArg String.data hp]
  rw [List.getElem?_append_left (by decide)] at hd
  revert hd
  decide

/-- C8 counterexample: the themes target — a file target other than
uploads — is dispatched with deletion mode disabled, not enabled: the
sixth argument of its `syncFiles` call in the target map is `false`. -/
theorem themes_delete_mode_disabled :
    targetDeleteMode "themes" = some false ∧
    targetDeleteMode "themes" ≠ some true := by decide

/-- C8 (amended): uploads, themes, plugins and languages are all synced
additively (deletion mode off); mu-plugins is the only file target
synced with deletion mode on; and for either direction the rsync
invocation carries `--delete-before` exactly when deletion mode is on. -/
theorem file_target_delete_modes :
    fileTargets.map (fun t => (t.name, t.deleteMode)) =
      [("themes", false), ("plugins", false), ("muplugins", true),
        ("languages", false), ("uploads", false)] ∧
    (∀ (env : EnvConfig) (exclude : List String) (dryRun deleteMode : Bool),
      ("--delete-before" ∈ rsyncArgsOf env exclude dryRun deleteMode) ↔ deleteMode = true) := by
  refine ⟨by decide, ?_⟩
  intro env exclude dryRun deleteMode
  cases deleteMode <;> cases dryRun <;>
    simp [rsyncArgsOf, List.mem_append, List.mem_map, excludeArg_ne_deleteFlag]

/-- Witness for the amended C8 theorem at a concrete configuration. -/
theorem file_target_delete_modes_witness :
    ("--delete-before" ∈ rsyncArgsOf stagingEnvC [] false true) ∧
    ¬ ("--delete-before" ∈ rsyncArgsOf stagingEnvC [] false false) :=
  ⟨(file_target_delete_modes.2 stagingEnvC [] false true).mpr rfl,
    fun h => by simpa using (file_target_delete_modes.2 stagingEnvC [] false false).mp h⟩

/-- Lifts `hasSeq_append_right` to string concatenation. -/
theorem hasSeq_strAppend (pat : List Char) (x y : String)
    (h : hasSeq pat y.data = true) : hasSeq pat (x ++ y).data = true :=
  hasSeq_append_right pat x.data h

/-- C9 counterexample: the substitution command a `db:export --replace`
run sends to the remote host passes neither the guid-column exclusion nor
the serialized-data-aware options — only `--all-tables --export=-`. -/
theorem db_export_substitution_lacks_flags :
    exportRemoteWpCmd stagingEnvC (some "https://production.example.com") =
      "wp search-replace 'staging.example.com' 'https://production.example.com' --all-tables --export=-" ∧
    hasSeq "--skip-columns=guid".data
      (exportRemoteWpCmd stagingEnvC (some "https://production.example.com")).data = false ∧
    hasSeq "--precise".data
      (exportRemoteWpCmd stagingEnvC (some "https://production.example.com")).data = false ∧
    hasSeq "--recurse-objects".data
      (exportRemoteWpCmd stagingEnvC (some "https://production.example.com")).data = false := by
  refine ⟨by decide, by decide, by decide, by decide⟩

/-- C9 (amended): the search-replace run after a push and the one run
after a pull always receive the wpOptions list, which contains the guid
exclusion and the serialized-data options in every mode — the remote
variant embeds them in its ssh command string, the local variant passes
them as arguments — while the substitution embedded in a `db:export
--replace` export carries none of them. -/
theorem search_replace_flag_coverage :
    (∀ dryRun multisite : Bool,
      "--skip-columns=guid" ∈ wpOptionsOf dryRun multisite ∧
      "--precise" ∈ wpOptionsOf dryRun multisite ∧
      "--recurse-objects" ∈ wpOptionsOf dryRun multisite) ∧
    (∀ (target fromD toD wpBin wpRoot : String) (multisite : Bool),
      (target == "local") = false →
      ∃ cmdStr,
        runSearchReplaceEvents target fromD toD wpBin wpRoot (wpOptionsOf false multisite) false
          = [DbEvent.spawnRun "ssh" [target, cmdStr]] ∧
        hasSeq "--skip-columns=guid".data cmdStr.data = true ∧
        hasSeq "--precise".data cmdStr.data = true ∧
        hasSeq "--recurse-objects".data cmdStr.data = true) ∧
    (∀ (fromD toD wpBin wpRoot : String) (dryRun multisite : Bool),
      ∃ bin args,
        runSearchReplaceEvents "local" fromD toD wpBin wpRoot (wpOptionsOf dryRun multisite) false
          = [DbEvent.spawnRun bin args] ∧
        "--skip-columns=guid" ∈ args ∧
        "--precise" ∈ args ∧
        "--recurse-objects" ∈ args) ∧
    hasSeq "--skip-columns=guid".data
      (exportRemoteWpCmd stagingEnvC (some "https://production.example.com")).data = false := by
  refine ⟨?_, ?_, ?_, by decide⟩
  · intro dryRun multisite
    cases dryRun <;> cases multisite <;> refine ⟨by decide, by decide, by decide⟩
  · intro target fromD toD wpBin wpRoot multisite hlocal
    refine ⟨"cd " ++ wpRoot ++ " && " ++ wpBin ++ " search-replace " ++ shellEscape fromD ++
        " " ++ shellEscape toD ++ " " ++ joinSpace (wpOptionsOf false multisite),
      by simp [runSearchReplaceEvents, hlocal, runAsyncEvents], ?_, ?_, ?_⟩ <;>
      exact hasSeq_strAppend _ _ _ (by cases multisite <;> decide)
  · intro fromD toD wpBin wpRoot dryRun multisite
    refine ⟨(jsSplitSpace wpBin).headD "",
      (jsSplitSpace wpBin).tailD [] ++
        (if jsStartsWith "wp " (jsTrim wpBin) && wpRoot ≠ "" then ["--path=" ++ wpRoot] else []) ++
        ["search-replace", fromD, toD] ++ wpOptionsOf dryRun multisite,
      by simp [runSearchReplaceEvents, runAsyncEvents], ?_, ?_, ?_⟩ <;>
      exact List.mem_append_right _ (by cases dryRun <;> cases multisite <;> decide)

/-- Witness for the amended C9 theorem at a concrete gate. -/
theorem search_replace_flag_coverage_witness :
    ∃ cmdStr,
      runSearchReplaceEvents "stg" "dev.local" "staging.example.com" "wp" "/var/www/html"
          (wpOptionsOf false false) false
        = [DbEvent.spawnRun "ssh" ["stg", cmdStr]] ∧
      hasSeq "--skip-columns=guid".data cmdStr.data = true ∧
      hasSeq "--precise".data cmdStr.data = true ∧
      hasSeq "--recurse-objects".data cmdStr.data = true :=
  search_replace_flag_coverage.2.1 "stg" "dev.local" "staging.example.com" "wp"
    "/var/www/html" false (by decide)

/-- C3: for both directions of the database sync, when the answer at the
confirmation gate is not the affirmative token, syncDatabase performs no
subprocess invocation at all and ends the process with exit code 0. -/
theorem declined_confirmation_is_clean_noop (direction : Direction) (envName : String)
    (env : EnvConfig) (localDomain remoteDomain : String) (dryRun : Bool)
    (cfg : SyncConfig) (ts answer : String)
    (hans : askNormalize answer ≠ "y") :
    (syncDatabase direction envName env localDomain remoteDomain dryRun cfg ts answer).events.all
        (fun e => !isSpawn e) = true ∧
    (syncDatabase direction envName env localDomain remoteDomain dryRun cfg ts answer).exit
      = some 0 := by
  have hc : confirmAccepts "y" answer = false := by
    unfold confirmAccepts
    rw [show jsToLower "y" = "y" from by decide]
    exact beq_eq_false_iff_ne.mpr hans
  cases direction <;>
    simp [syncDatabase, pushDbGate, pullDbGate, hc, isSpawn]

/-- Witness for the C3 theorem at a concrete declined run. -/
theorem declined_confirmation_is_clean_noop_witness :
    (syncDatabase Direction.push "staging" stagingEnvC "dev.local" "staging.example.com"
        false cfgTwoC tsC "n").events.all (fun e => !isSpawn e) = true ∧
    (syncDatabase Direction.push "staging" stagingEnvC "dev.local" "staging.example.com"
        false cfgTwoC tsC "n").exit = some 0 :=
  declined_confirmation_is_clean_noop Direction.push "staging" stagingEnvC "dev.local"
    "staging.example.com" false cfgTwoC tsC "n" (by decide)

/-- If neither of the two leading events of an awaited pipeline is
destructive, then whenever a destructive event was attempted — execution
reaches an event only after all earlier ones completed, stopping at the
first failure — the second event completed. -/
theorem mem_completed_of_destructive_attempted (e0 e1 : DbEvent) (rest : List DbEvent)
    (ok : DbEvent → Bool) (h0 : isDestructive e0 = false) (h1 : isDestructive e1 = false)
    (hdest : ∃ e ∈ attemptedSteps ok (e0 :: e1 :: rest), isDestructive e = true) :
    e1 ∈ completedSteps ok (e0 :: e1 :: rest) := by
  by_cases k0 : ok e0 = true
  · by_cases k1 : ok e1 = true
    · simp [completedSteps, List.takeWhile, k0, k1]
    · exfalso
      obtain ⟨e, he, hd⟩ := hdest
      have k1f : ok e1 = false := by
        cases hk : ok e1 with
        | false => rfl
        | true => exact absurd hk k1
      simp [attemptedSteps, k0, k1f] at he
      rcases he with rfl | rfl
      · rw [h0] at hd; exact Bool.false_ne_true hd
      · rw [h1] at hd; exact Bool.false_ne_true hd
  · exfalso
    obtain ⟨e, he, hd⟩ := hdest
    have k0f : ok e0 = false := by
      cases hk : ok e0 with
      | false => rfl
      | true => exact absurd hk k0
    simp [attemptedSteps, k0f] at he
    subst he
    rw [h0] at hd
    exact Bool.false_ne_true hd

/-- C1: for both directions, every environment and every configuration,
with dry-run off and the confirmation accepted, the local backup export
stands strictly before the first destructive write in the awaited
pipeline, so whenever any destructive step (the piped export-to-import
pair, or the later search-replace) is attempted — even if that step then
fails — the local backup export has already completed. -/
theorem backup_export_before_destructive (direction : Direction) (envName : String)
    (env : EnvConfig) (localDomain remoteDomain : String) (cfg : SyncConfig)
    (ts answer : String) (ok : DbEvent → Bool)
    (hans : confirmAccepts "y" answer = true)
    (hdest : ∃ e ∈ attemptedSteps ok
        (syncDatabase direction envName env localDomain remoteDomain false cfg ts answer).events,
      isDestructive e = true) :
    ∃ dumpPath, DbEvent.spawnLocalExport (wpBinLocalOf cfg) dumpPath ∈
      completedSteps ok
        (syncDatabase direction envName env localDomain remoteDomain false cfg ts answer).events := by
  cases direction with
  | push =>
    simp only [syncDatabase, pushDbGate, hans, exportLocalDBEvents] at hdest ⊢
    simp at hdest ⊢
    exact ⟨_, mem_completed_of_destructive_attempted _ _ _ ok rfl rfl hdest⟩
  | pull =>
    simp only [syncDatabase, pullDbGate, hans, exportLocalDBEvents, exportRemoteDBEvents] at hdest ⊢
    simp at hdest ⊢
    exact ⟨_, mem_completed_of_destructive_attempted _ _ _ ok rfl rfl hdest⟩

/-- Witness for the C1 theorem: a push run whose destructive pipe step
fails (the oracle rejects every destructive event) still has the backup
export among the completed steps. -/
theorem backup_export_before_destructive_witness :
    ∃ dumpPath, DbEvent.spawnLocalExport (wpBinLocalOf cfgTwoC) dumpPath ∈
      completedSteps (fun e => !isDestructive e)
        (syncDatabase Direction.push "staging" stagingEnvC "dev.local" "staging.example.com"
          false cfgTwoC tsC "y").events :=
  backup_export_before_destructive Direction.push "staging" stagingEnvC "dev.local"
    "staging.example.com" cfgTwoC tsC "y" (fun e => !isDestructive e) (by decide) (by decide)

/-- C7 counterexample: a database push dry-run neither performs nor logs
the piped export-to-import step or the search-replace step that the
corresponding live run performs, so the dry-run intention sequence is
not the live sequence. -/
theorem dry_run_omits_pipe_and_search_replace :
    (syncDatabase Direction.push "staging" stagingEnvC "dev.local" "staging.example.com"
        true cfgTwoC tsC "y").events.any (fun e => mentionsPipe e) = false ∧
    (syncDatabase Direction.push "staging" stagingEnvC "dev.local" "staging.example.com"
        false cfgTwoC tsC "y").events.any (fun e => mentionsPipe e) = true ∧
    (syncDatabase Direction.push "staging" stagingEnvC "dev.local" "staging.example.com"
        true cfgTwoC tsC "y").events.any (fun e => mentionsSearchReplace e) = false ∧
    (syncDatabase Direction.push "staging" stagingEnvC "dev.local" "staging.example.com"
        false cfgTwoC tsC "y").events.any (fun e => mentionsSearchReplace e) = true := by
  refine ⟨by decide, by decide, by decide, by decide⟩

/-- C7 (amended): a database dry-run invokes zero subprocesses, for every
direction, environment, configuration and operator answer, and never even
mentions the pipe step (it stops after the backup-export intentions);
and the dry-run branch of the process runner spawns nothing. -/
theorem dry_run_spawns_nothing (direction : Direction) (envName : String)
    (env : EnvConfig) (localDomain remoteDomain : String) (cfg : SyncConfig)
    (ts answer : String) :
    (syncDatabase direction envName env localDomain remoteDomain true cfg ts answer).events.all
        (fun e => !isSpawn e) = true ∧
    (syncDatabase direction envName env localDomain remoteDomain true cfg ts answer).events.all
        (fun e => !mentionsPipe e) = true ∧
    (∀ cmd args, (runAsyncEvents cmd args true).all (fun e => !isSpawn e) = true) := by
  refine ⟨?_, ?_, fun cmd args => rfl⟩ <;>
  · cases direction <;> cases hc : confirmAccepts "y" answer <;>
      simp [syncDatabase, pushDbGate, pullDbGate, hc, exportLocalDBEvents,
        exportRemoteDBEvents, isSpawn, mentionsPipe]

end WpSync
